import Mathlib

/-!
Verification of the `txflow` transaction tracer (`src/tracer.go`).

The Go source is shallowly embedded below.  Machine integers are modelled
as `Nat`/`Int` with explicit wrapping where Go overflow semantics matter
(`uint64` arithmetic, conversions).  Go panics (out-of-range slicing,
nil-pointer dereference, `panic(...)` calls) are modelled as
`Except.error ()`; a normal return is `Except.ok`.  Byte slices are
`List Nat` (one `Nat` per byte, capacity = length), strings are Lean
`String`s over their character lists.

Helpers of the repository that live outside `src/` (the AST query layer,
source-map parsing, the PC-to-ordinal index builder) are represented by
the data they produce, which the tracer stores in its state; the one such
function the tracer calls during stepping, `InstructionByBytecodePosition`,
is modelled from the spec (see its doc comment).  Calls into external
libraries (go-ethereum address formatting, `vm.Memory.Get`, `regexp`) are
collected in the `Ext` record of oracles supplied to each callback.
-/

/-- `2^64`, the modulus of Go `uint64` arithmetic. -/
def UINT64_MOD : Nat := 18446744073709551616

/-- Go `uint64` subtraction of 1, i.e. `x - 1` wrapping at zero. -/
def wrapSub1 (x : Nat) : Nat := (x + (UINT64_MOD - 1)) % UINT64_MOD

/-- Go conversion `uint64(i)` of an `int`/`int64` value: reduce mod `2^64`. -/
def toUint64 (i : Int) : Nat := (i % (UINT64_MOD : Int)).toNat

/-- Go `big.Int.Int64()`: the low 64 bits, interpreted as a signed value. -/
def toInt64 (n : Nat) : Int :=
  if n % UINT64_MOD < 2 ^ 63 then ((n % UINT64_MOD : Nat) : Int)
  else ((n % UINT64_MOD : Nat) : Int) - (UINT64_MOD : Int)

/-- Lowercase hex digit for a value below 16 (as printed by Go `%x`). -/
def hexDigitChar (n : Nat) : Char :=
  if n < 10 then Char.ofNat (n + 48) else Char.ofNat (n + 87)

/-- One byte as two lowercase hex digits (Go `fmt.Sprintf "%x"` on bytes). -/
def byteToHex (b : Nat) : List Char :=
  [hexDigitChar (b / 16 % 16), hexDigitChar (b % 16)]

/-- Go `fmt.Sprintf "%x"` applied to a byte slice. -/
def bytesToHex (bs : List Nat) : String := String.mk ((bs.map byteToHex).flatten)

/-- Go `big.Int.SetBytes`: big-endian unsigned interpretation of a byte slice. -/
def bytesToNat (bs : List Nat) : Nat := bs.foldl (fun acc b => acc * 256 + b) 0

/-- ASCII lowercase of one character (Go `strings.ToLower`, ASCII range). -/
def charToLower (c : Char) : Char :=
  if 'A' ≤ c ∧ c ≤ 'Z' then Char.ofNat (c.toNat + 32) else c

/-- Go `strings.ToLower` (inputs here are ASCII address strings). -/
def strToLower (s : String) : String := String.mk (s.data.map charToLower)

/-- Character-list core of Go `strings.HasPrefix`. -/
def listHasPre : List Char → List Char → Bool
  | _, [] => true
  | [], _ :: _ => false
  | c :: cs, d :: ds => c == d && listHasPre cs ds

/-- Go `strings.HasPrefix s sub`. -/
def goHasPre (s sub : String) : Bool := listHasPre s.data sub.data

/-- Go `strings.Split` with a one-character separator, on character lists.
`Split` of an empty string yields one empty part, matching Go. -/
def splitChar (sep : Char) : List Char → List (List Char)
  | [] => [[]]
  | c :: cs =>
    let r := splitChar sep cs
    if c == sep then [] :: r
    else
      match r with
      | [] => [[c]]
      | h :: ts => (c :: h) :: ts

/-- Go `strings.Split(s, sep)` for a one-character separator. -/
def goSplit (s : String) (sep : Char) : List (List Char) := splitChar sep s.data

/-- Go slice expression `l[lo:hi]` on a byte slice with capacity = length:
panics (`error`) unless `lo ≤ hi ≤ len`. -/
def goSliceNat (l : List Nat) (lo hi : Nat) : Except Unit (List Nat) :=
  if lo ≤ hi ∧ hi ≤ l.length then .ok ((l.take hi).drop lo) else .error ()

/-- Go slice expression `s[lo:hi]` on a string, with `int` bounds:
panics unless `0 ≤ lo ≤ hi ≤ len`. -/
def goSliceChars (s : List Char) (lo hi : Int) : Except Unit (List Char) :=
  if 0 ≤ lo ∧ lo ≤ hi ∧ hi ≤ (s.length : Int) then
    .ok ((s.take hi.toNat).drop lo.toNat)
  else .error ()

/-- Decimal digit value of a character, if it is a digit. -/
def digToNat (c : Char) : Option Nat :=
  if '0' ≤ c ∧ c ≤ '9' then some (c.toNat - 48) else none

/-- Accumulating decimal parse; fails on any non-digit. -/
def parseDigitsAux : List Char → Nat → Option Nat
  | [], acc => some acc
  | c :: cs, acc =>
    match digToNat c with
    | none => none
    | some d => parseDigitsAux cs (acc * 10 + d)

/-- Go `strconv.Atoi`: optional sign then at least one digit; anything else
is an error.  (The `int64` range check of the real function is not modelled;
no claim depends on it.) -/
def Atoi (s : String) : Except Unit Int :=
  match s.data with
  | [] => .error ()
  | '+' :: cs =>
    match cs, parseDigitsAux cs 0 with
    | _ :: _, some n => .ok (n : Int)
    | _, _ => .error ()
  | '-' :: cs =>
    match cs, parseDigitsAux cs 0 with
    | _ :: _, some n => .ok (-(n : Int))
    | _, _ => .error ()
  | cs =>
    match parseDigitsAux cs 0 with
    | some n => .ok (n : Int)
    | none => .error ()

/-- Go `strconv.Atoi` where the caller ignores the error: Go then sees the
zero result (`strconv.Atoi` returns `0` together with a syntax error). -/
def atoiOrZero (s : String) : Int :=
  match Atoi s with
  | .ok v => v
  | .error _ => 0

/-- One decoded source-map record (type `SourceMapping` of the repository;
its decoder `ParseSourceMap` lives outside `src/`).  Fields are Go `int`s:
source maps delta-decode signed integers (spec section 4.1). -/
structure SourceMapping where
  Start : Int
  Length : Int
  FileId : Int
  Jump : String
  Line : Int
deriving DecidableEq, Repr

/-- The slice of a Go AST node the tracer reads (type `AstNode`, defined
outside `src/`).  `Name` and `typeStr` (Go `node.TypeDescriptions.TypeString`)
drive parameter decoding; `Source` is the `"start:length:file"` span string;
`ReceiverSel` is the hex selector string returned by the AST query layer's
`Receiver()` method (a cryptographic hash computed outside `src/`,
represented by its result); `ParamsList` is `node.Parameters.Parameters`. -/
inductive AstNode : Type where
  | node (name source typeStr receiverSel : String) (paramsList : List AstNode) : AstNode
deriving Repr

/-- Go field access `node.Name`. -/
def AstNode.Name : AstNode → String
  | .node n _ _ _ _ => n

/-- Go field access `node.Source`. -/
def AstNode.Source : AstNode → String
  | .node _ s _ _ _ => s

/-- Go field access `node.TypeDescriptions.TypeString`. -/
def AstNode.TypeString : AstNode → String
  | .node _ _ t _ _ => t

/-- Go method call `fnDef.Receiver()` (the 4-byte selector as lowercase hex). -/
def AstNode.Receiver : AstNode → String
  | .node _ _ _ r _ => r

/-- Go field access `fnDef.Parameters.Parameters`. -/
def AstNode.Parameters : AstNode → List AstNode
  | .node _ _ _ _ ps => ps

/-- A contract artifact as the tracer consumes it (type `TruffleContract`,
parsed outside `src/`).  `fnDefs` is the value of
`DiscoverFunctionDefinitions(contract.Ast)` (AST query layer, outside
`src/`), which `CaptureStart` and `findFnDef` recompute from the immutable
AST on every call. -/
structure TruffleContract where
  Name : String
  SourceCode : List Char
  fnDefs : List AstNode
deriving Repr

/-- `CallFrame` of `src/tracer.go`.  `PC` stays `0` (the Go zero value)
except on pending-jump frames, which set it explicitly. -/
structure CallFrame where
  Contract : String
  Instruction : Nat
  Source : String
  Line : Int
  PC : Nat
  Depth : Nat
  Params : List String
deriving Repr

/-- `vm.ContractRef` as the tracer reads it: `contract.Address().String()`
(already formatted by go-ethereum) and the deployed bytecode. -/
structure ContractRef where
  address : String
  code : List Nat
deriving Repr

/-- `Tracer` of `src/tracer.go`.  Go maps become association lists (a
memoization insert prepends, so `List.lookup` sees the newest binding);
`jumpDepth` is the Go `int64` counter, modelled as `Int` (no trace can
approach the `int64` bounds, and no claim concerns them). -/
structure Tracer where
  LastJump : Option CallFrame
  Stack : List CallFrame
  contracts : List (String × TruffleContract)
  instructionMaps : List (String × List (Nat × Nat))
  sourceMaps : List (String × List SourceMapping)
  receivers : List (String × List String)
  functionDefs : List (String × List AstNode)
  jumpDepth : Int
deriving Repr

/-- The external-library calls `src/tracer.go` makes, supplied as oracles:
`common.BigToAddress(x).String()`, `common.BytesToAddress(b).String()`
(go-ethereum checksummed formatting), `vm.Memory.Get` on the instruction's
memory snapshot, and `regexp.MatchString` for the fixed pattern
`(?m)function(.*\s)+}` (whose compilation never errors, so the Go
`err != nil` arm is dead and the oracle is a plain `Bool`). -/
structure ExtLib where
  bigToAddressString : Nat → String
  bytesToAddressString : List Nat → String
  memGet : List Nat → Int → Int → List Nat
  matchFuncRegex : String → Bool

/-- `DecodeParam` of `src/tracer.go` (buffer mode).  Reads the 32-byte word
`input[offset : offset+32]` (a Go slice expression: panic when out of
bounds) and formats it by the parameter's type string; unknown types yield
the empty string.  Returns the string and the offset advance (always 32). -/
def DecodeParam (ext : ExtLib) (node : AstNode) (offset : Nat) (input : List Nat) :
    Except Unit (String × Nat) :=
  let name := node.TypeString
  if goHasPre name "int" || goHasPre name "uint" then
    match goSliceNat input offset (offset + 32) with
    | .error e => .error e
    | .ok w => .ok (node.Name ++ " = " ++ toString (bytesToNat w), 32)
  else if name == "address" then
    match goSliceNat input offset (offset + 32) with
    | .error e => .error e
    | .ok w => .ok (node.Name ++ " = " ++ ext.bytesToAddressString w, 32)
  else if name == "bool" then
    match goSliceNat input offset (offset + 32) with
    | .error e => .error e
    | .ok w =>
      if 0 < bytesToNat w then .ok (node.Name ++ " = true", 32)
      else .ok (node.Name ++ " = false", 32)
  else .ok ("", 32)

/-- `DecodeStack` of `src/tracer.go` (stack mode).  `item` is the EVM
evaluation-stack word, a non-negative `big.Int` below `2^256`, printed by
`big.Int.String()` (decimal). -/
def DecodeStack (ext : ExtLib) (node : AstNode) (item : Nat) : String :=
  let name := node.TypeString
  if goHasPre name "int" || goHasPre name "uint" then
    node.Name ++ " = " ++ toString item
  else if name == "address" then
    node.Name ++ " = " ++ ext.bigToAddressString item
  else if name == "bool" then
    if 0 < item then node.Name ++ " = true" else node.Name ++ " = false"
  else ""

/-- The parameter loop shared by `CaptureStart` and the CALL-family cases:
decode each parameter in buffer mode, advance the offset by the returned
amount, and skip empty strings. -/
def decodeParams (ext : ExtLib) : List AstNode → Nat → List Nat → Except Unit (List String)
  | [], _, _ => .ok []
  | p :: rest, offset, input =>
    match DecodeParam ext p offset input with
    | .error e => .error e
    | .ok (s, o) =>
      match decodeParams ext rest (offset + o) input with
      | .error e => .error e
      | .ok tail => .ok (if s == "" then tail else s :: tail)

/-- `vm.Stack.Back(n)` of go-ethereum: the `n`-th word from the top of the
evaluation stack (`stk` lists the stack top-first); out of range panics. -/
def stackBack (stk : List Nat) (n : Nat) : Except Unit Nat :=
  match stk.get? n with
  | some w => .ok w
  | none => .error ()

/-- `vm.OpCode` is a byte; the tracer compares it against named constants. -/
abbrev OpCode := Nat

def OP_STOP : OpCode := 0x00
def OP_JUMP : OpCode := 0x56
def OP_JUMPI : OpCode := 0x57
def OP_JUMPDEST : OpCode := 0x5b
def OP_CALL : OpCode := 0xf1
def OP_CALLCODE : OpCode := 0xf2
def OP_RETURN : OpCode := 0xf3
def OP_DELEGATECALL : OpCode := 0xf4
def OP_STATICCALL : OpCode := 0xfa
def OP_REVERT : OpCode := 0xfd
/-- `var InvalidOpcode vm.OpCode = 0xfe` of `src/tracer.go`. -/
def InvalidOpcode : OpCode := 0xfe
def OP_SELFDESTRUCT : OpCode := 0xff

/-- `CallStack.Push`: Go `append`, so frames accumulate at the list end. -/
def CallStack.Push (s : List CallFrame) (frame : CallFrame) : List CallFrame :=
  s ++ [frame]

/-- `CallStack.Lookup pc`: whether some frame on the stack records `PC = pc`.
(The Go loop scans from the top; only the boolean result is observable.) -/
def CallStack.Lookup (s : List CallFrame) (pc : Nat) : Bool :=
  s.any (fun f => f.PC == pc)

/-- Immediate width of an opcode: `PUSH_n` (`0x60 ≤ b ≤ 0x7f`) carries
`n = b - 0x5f` immediate bytes, everything else none. -/
def pushWidth (b : Nat) : Nat := if 0x60 ≤ b ∧ b ≤ 0x7f then b - 0x5f else 0

/-- Modelled from the spec: `InstructionByBytecodePosition` is code of this
repository that is not under `src/` (only its caller `toInstruction` is).
Spec section 4.2: iterate the bytecode; at each PC record `(PC, ordinal)`;
a `PUSH_n` opcode advances the PC by `n+1` (skipping its immediate bytes),
any other by 1; the ordinal advances by 1 each instruction.  The first
argument is fuel, structurally decreasing; `code.length` always suffices
because every step consumes at least one byte. -/
def ibbp : Nat → List Nat → Nat → Nat → List (Nat × Nat)
  | 0, _, _, _ => []
  | _ + 1, [], _, _ => []
  | fuel + 1, b :: rest, pc, ord =>
    (pc, ord) :: ibbp fuel (rest.drop (pushWidth b)) (pc + 1 + pushWidth b) (ord + 1)

/-- Modelled from the spec: see `ibbp`. -/
def InstructionByBytecodePosition (code : List Nat) : List (Nat × Nat) :=
  ibbp code.length code 0 0

/-- The memoization step of `Tracer.toInstruction`: fetch the contract's
PC-to-ordinal map, building and caching it on first use. -/
def memoInstructionMap (t : Tracer) (contract : ContractRef) :
    List (Nat × Nat) × Tracer :=
  let key := strToLower contract.address
  match List.lookup key t.instructionMaps with
  | some m => (m, t)
  | none =>
    let m := InstructionByBytecodePosition contract.code
    (m, { t with instructionMaps := (key, m) :: t.instructionMaps })

/-- `Tracer.toInstruction`: PC to instruction ordinal; a missing entry is
logged and yields ordinal 0.  Returns the possibly-extended tracer. -/
def toInstruction (t : Tracer) (contract : ContractRef) (pc : Nat) : Nat × Tracer :=
  let mt := memoInstructionMap t contract
  match List.lookup pc mt.1 with
  | some i => (i, mt.2)
  | none => (0, mt.2)

/-- `Tracer.toLine`: a nil mapping yields line 0. -/
def toLine (mapping : Option SourceMapping) : Int :=
  match mapping with
  | none => 0
  | some m => m.Line

/-- `Tracer.toSourceMapping`: the mapping at an instruction ordinal, nil
when the contract has no source map or the ordinal is out of range. -/
def toSourceMapping (t : Tracer) (contract : ContractRef) (instruction : Nat) :
    Option SourceMapping :=
  match List.lookup (strToLower contract.address) t.sourceMaps with
  | none => none
  | some srcMap =>
    if srcMap.length ≤ instruction then none
    else srcMap.get? instruction

/-- The backward walk of `Tracer.toPreviousSourceMapping`: from ordinal `r`,
step to `r - 1` (Go `uint64` decrement, wrapping at zero) while the mapping
equals `next` on `(Start, Length)`; reading outside the array panics.  The
first argument is fuel bounding the iteration count; `srcMap.length + 2`
always suffices, because in-range ordinals strictly decrease and the wrap
at zero leaves the range (array lengths stay below `2^64`). -/
def walkPrev (srcMap : List SourceMapping) (next : SourceMapping) :
    Nat → Nat → Except Unit SourceMapping
  | 0, _ => .error ()
  | fuel + 1, r =>
    match srcMap.get? r with
    | none => .error ()
    | some m =>
      if m.Start == next.Start && m.Length == next.Length then
        walkPrev srcMap next fuel (wrapSub1 r)
      else .ok m

/-- `Tracer.toPreviousSourceMapping`: the last mapping before `instruction`
whose `(Start, Length)` differs from the instruction's own.  `.ok none`
models the Go `nil` returns; `.error` models the panic when the backward
walk indexes outside the source-map array (starting ordinal 0, or every
earlier mapping equal). -/
def toPreviousSourceMapping (t : Tracer) (contract : ContractRef)
    (instruction : Nat) : Except Unit (Option SourceMapping) :=
  match List.lookup (strToLower contract.address) t.sourceMaps with
  | none => .ok none
  | some srcMap =>
    if srcMap.length ≤ instruction then .ok none
    else
      match srcMap.get? instruction with
      | none => .ok none
      | some next =>
        match walkPrev srcMap next (srcMap.length + 2) (wrapSub1 instruction) with
        | .error e => .error e
        | .ok m => .ok (some m)

/-- `Tracer.toSource`: the source snippet under the current mapping.
"N/A" when the contract has no artifact; dereferencing a nil mapping or
slicing outside the source text panics. -/
def toSource (t : Tracer) (contract : ContractRef) (pc : Nat) :
    Except Unit (String × Tracer) :=
  let it := toInstruction t contract pc
  let mapping := toSourceMapping it.2 contract it.1
  match List.lookup (strToLower contract.address) it.2.contracts with
  | none => .ok ("N/A", it.2)
  | some tc =>
    match mapping with
    | none => .error ()
    | some m =>
      match goSliceChars tc.SourceCode m.Start (m.Start + m.Length) with
      | .error e => .error e
      | .ok cs => .ok (String.mk cs, it.2)

/-- `Tracer.toPreviousSource`: like `toSource` but via the previous
differing mapping (the callsite rather than the calling preamble). -/
def toPreviousSource (t : Tracer) (contract : ContractRef) (pc : Nat) :
    Except Unit (String × Tracer) :=
  let it := toInstruction t contract pc
  match toPreviousSourceMapping it.2 contract it.1 with
  | .error e => .error e
  | .ok mapping =>
    match List.lookup (strToLower contract.address) it.2.contracts with
    | none => .ok ("N/A", it.2)
    | some tc =>
      match mapping with
      | none => .error ()
      | some m =>
        match goSliceChars tc.SourceCode m.Start (m.Start + m.Length) with
        | .error e => .error e
        | .ok cs => .ok (String.mk cs, it.2)

/-- `Tracer.isFunctionDefinition`: the first known private function
definition whose span start (the field before the first `:` of its
`"start:length:file"` source string) prints equal to the mapping's
`Start` (`strconv.Itoa`). -/
def isFunctionDefinition (t : Tracer) (contract : ContractRef)
    (mapping : SourceMapping) : Option AstNode :=
  match List.lookup (strToLower contract.address) t.functionDefs with
  | none => none
  | some fnDefs =>
    fnDefs.find? (fun fd =>
      (goSplit fd.Source ':').headD [] == (toString mapping.Start).data)

/-- `Tracer.findFnDef`: look up the target contract's artifact and search
its function definitions for one whose selector matches the first four
bytes of `receiver` (printed as hex).  Nil when the artifact or the
selector is missing. -/
def findFnDef (t : Tracer) (addr : String) (receiver : List Nat) :
    Option AstNode :=
  match List.lookup (strToLower addr) t.contracts with
  | none => none
  | some contract =>
    let target := bytesToHex (receiver.take 4)
    contract.fnDefs.find? (fun fd => fd.Receiver == target)

/-- The line-counting loop of `Tracer.CaptureStart`: scan `k` characters of
the source from index `i` carrying line `l` and column `c` (both starting
at 1); a newline bumps the line and resets the column.  Reading past the
end of the source panics. -/
def lineScan (src : List Char) : Nat → Nat → Nat → Nat → Except Unit Nat
  | 0, _, l, _ => .ok l
  | k + 1, i, l, c =>
    match src.get? i with
    | none => .error ()
    | some ch =>
      if ch == '\n' then lineScan src k (i + 1) (l + 1) (0 + 1)
      else lineScan src k (i + 1) l (c + 1)

/-- `for i < start` with `i` starting at 0: a non-positive `start` runs no
iterations (Go `int` comparison). -/
def lineScanGo (src : List Char) (start : Int) : Except Unit Nat :=
  lineScan src start.toNat 0 1 1

/-- Go `strings.Split(s, "\n")[0]`: the text before the first newline. -/
def firstLine (cs : List Char) : List Char := cs.takeWhile (fun c => c != '\n')

/-- The function-definition loop of `Tracer.CaptureStart`: for each
definition whose selector equals `target`, split its span string (panic
when it has fewer than two parts: Go `panic("No parts")`), parse the span
start (panic on a malformed integer; the length's parse error is ignored,
so a malformed length reads as 0), count the entry line, decode the
parameters in buffer mode, and emit a frame whose source snippet is the
first line of the span text.  Frames are returned in definition order. -/
def captureStartLoop (ext : ExtLib) (contract : TruffleContract)
    (toLow target : String) (input : List Nat) :
    List AstNode → Except Unit (List CallFrame)
  | [] => .ok []
  | fnDef :: rest =>
    if fnDef.Receiver != target then
      captureStartLoop ext contract toLow target input rest
    else
      let parts := goSplit fnDef.Source ':'
      if parts.length < 2 then .error ()
      else
        match Atoi (String.mk (parts.headD [])) with
        | .error e => .error e
        | .ok start =>
          let len := atoiOrZero (String.mk ((parts.get? 1).getD []))
          match lineScanGo contract.SourceCode start with
          | .error e => .error e
          | .ok l =>
            match decodeParams ext fnDef.Parameters 4 input with
            | .error e => .error e
            | .ok params =>
              match goSliceChars contract.SourceCode start (start + len) with
              | .error e => .error e
              | .ok span =>
                match captureStartLoop ext contract toLow target input rest with
                | .error e => .error e
                | .ok frames =>
                  .ok ({ Contract := toLow, Instruction := 0,
                         Source := String.mk (firstLine span), Line := (l : Int),
                         PC := 0, Depth := 0, Params := params } :: frames)

/-- `Tracer.CaptureStart` of `src/tracer.go`.  An address without an
artifact is ignored; otherwise the 4-byte selector `input[:4]` (a Go slice
expression: panic when the input is shorter than four bytes) selects the
public function definitions to emit frames for. -/
def CaptureStart (ext : ExtLib) (t : Tracer) (fromAddr toAddr : String)
    (call : Bool) (input : List Nat) (gas : Nat) (value : Int) :
    Except Unit Tracer :=
  match List.lookup (strToLower toAddr) t.contracts with
  | none => .ok t
  | some contract =>
    match goSliceNat input 0 4 with
    | .error e => .error e
    | .ok sel =>
      let target := bytesToHex sel
      match captureStartLoop ext contract (strToLower toAddr) target input
          contract.fnDefs with
      | .error e => .error e
      | .ok frames => .ok { t with Stack := t.Stack ++ frames }

/-- The stack-mode decode loop of the JUMPDEST entry case: iteration `i`
decodes parameter `len - 1 - i` from evaluation-stack word `i` (from the
top), skipping empty strings.  The first argument is fuel equal to the
number of remaining iterations (`nodes.length` at the initial call, so the
loop runs exactly while `i < nodes.length`). -/
def decodeStackLoop (ext : ExtLib) (nodes : List AstNode) (stk : List Nat) :
    Nat → Nat → Except Unit (List String)
  | 0, _ => .ok []
  | fuel + 1, i =>
    match nodes.get? (nodes.length - 1 - i) with
    | none => .ok []
    | some node =>
      match stackBack stk i with
      | .error e => .error e
      | .ok w =>
        let p := DecodeStack ext node w
        match decodeStackLoop ext nodes stk fuel (i + 1) with
        | .error e => .error e
        | .ok rest => .ok (if p == "" then rest else p :: rest)

/-- The stack-mode parameter decode of the JUMPDEST entry case: run the
loop, then reverse the collected list in place. -/
def decodeStackParams (ext : ExtLib) (nodes : List AstNode) (stk : List Nat) :
    Except Unit (List String) :=
  match decodeStackLoop ext nodes stk nodes.length 0 with
  | .error e => .error e
  | .ok params => .ok params.reverse

/-- The body shared verbatim by the `CALL, CALLCODE` and
`STATICCALL, DELEGATECALL` cases of `Tracer.CaptureState` (the Go switch
duplicates this block).  Reads the target address and the call data from
the evaluation stack and memory, resolves the callee's function definition
(a nil result is dereferenced at `fnDef.Parameters.Parameters`: panic),
decodes parameters in buffer mode, and pushes a frame at the previous
source mapping of the current PC. -/
def handleCallFamily (ext : ExtLib) (t : Tracer) (pc : Nat) (mem : List Nat)
    (stk : List Nat) (contract : ContractRef) (depth : Int) :
    Except Unit Tracer :=
  match stackBack stk 1 with
  | .error e => .error e
  | .ok addr =>
    match stackBack stk 3 with
    | .error e => .error e
    | .ok moff =>
      match stackBack stk 4 with
      | .error e => .error e
      | .ok mlen =>
        let data := ext.memGet mem (toInt64 moff) (toInt64 mlen)
        match goSliceNat data 0 4 with
        | .error e => .error e
        | .ok receiver =>
          match findFnDef t (ext.bigToAddressString addr) receiver with
          | none => .error ()
          | some fnDef =>
            match decodeParams ext fnDef.Parameters 4 data with
            | .error e => .error e
            | .ok params =>
              let it1 := toInstruction t contract pc
              match toPreviousSource it1.2 contract pc with
              | .error e => .error e
              | .ok sr =>
                let it2 := toInstruction sr.2 contract pc
                match toPreviousSourceMapping it2.2 contract it2.1 with
                | .error e => .error e
                | .ok pm =>
                  .ok { it2.2 with
                        Stack := CallStack.Push it2.2.Stack
                          { Contract := strToLower contract.address,
                            Instruction := it1.1,
                            Depth := (toUint64 depth + toUint64 t.jumpDepth) %
                              UINT64_MOD,
                            Source := sr.1,
                            Line := toLine pm,
                            PC := 0, Params := params } }

/-- The `JUMP` case of `Tracer.CaptureState`: record the pending-jump
candidate frame (current PC, source mapping, combined depth). -/
def handleJump (ext : ExtLib) (t : Tracer) (pc : Nat) (contract : ContractRef)
    (depth : Int) : Except Unit Tracer :=
  let it1 := toInstruction t contract pc
  match toSource it1.2 contract pc with
  | .error e => .error e
  | .ok sr =>
    let it2 := toInstruction sr.2 contract pc
    .ok { it2.2 with
          LastJump := some
            { Contract := strToLower contract.address,
              Instruction := it1.1,
              Depth := (toUint64 depth + toUint64 t.jumpDepth) % UINT64_MOD,
              Source := sr.1,
              Line := toLine (toSourceMapping it2.2 contract it2.1),
              PC := pc, Params := [] } }

/-- The `JUMPDEST` case of `Tracer.CaptureState`: a destination whose
`pc - 1` matches a recorded frame PC is a function return (decrement
`jumpDepth`, clamping a negative result to 0 with a log line); otherwise,
when the instruction's mapping starts a known private function definition,
a pending jump exists, and its snippet does not match the function-pattern
regex, the pending frame is completed with stack-mode parameters, pushed,
and `jumpDepth` incremented. -/
def handleJumpdest (ext : ExtLib) (t : Tracer) (pc : Nat) (stk : List Nat)
    (contract : ContractRef) : Except Unit Tracer :=
  if CallStack.Lookup t.Stack (wrapSub1 pc) then
    let jd := t.jumpDepth - 1
    .ok { t with jumpDepth := if jd < 0 then 0 else jd }
  else
    let it := toInstruction t contract pc
    match toSourceMapping it.2 contract it.1 with
    | none => .ok it.2
    | some srcMapping =>
      match isFunctionDefinition it.2 contract srcMapping, it.2.LastJump with
      | some fnDef, some lastJump =>
        if ext.matchFuncRegex lastJump.Source then .ok it.2
        else
          match decodeStackParams ext fnDef.Parameters stk with
          | .error e => .error e
          | .ok params =>
            .ok { it.2 with
                  Stack := CallStack.Push it.2.Stack
                    { lastJump with Params := params },
                  jumpDepth := it.2.jumpDepth + 1 }
      | _, _ => .ok it.2

/-- The switch of `Tracer.CaptureState`: CALL-family, `JUMP` and `JUMPDEST`
carry the trace logic; `RETURN`, `REVERT`, `STOP`, `SELFDESTRUCT` and
`InvalidOpcode` share an empty case, and every other opcode falls through. -/
def captureStateBody (ext : ExtLib) (t : Tracer) (pc : Nat) (op : OpCode)
    (mem stk : List Nat) (contract : ContractRef) (depth : Int) :
    Except Unit Tracer :=
  if op == OP_CALL || op == OP_CALLCODE then
    handleCallFamily ext t pc mem stk contract depth
  else if op == OP_STATICCALL || op == OP_DELEGATECALL then
    handleCallFamily ext t pc mem stk contract depth
  else if op == OP_JUMP then handleJump ext t pc contract depth
  else if op == OP_JUMPDEST then handleJumpdest ext t pc stk contract
  else .ok t

/-- `Tracer.CaptureState` of `src/tracer.go`.  The deferred function runs
on every exit and clears `LastJump` unless the opcode is `JUMP` or
`JUMPI`; a panic propagates, so an `Except.error` yields no new state. -/
def CaptureState (ext : ExtLib) (t : Tracer) (pc : Nat) (op : OpCode)
    (gas cost : Nat) (mem stk : List Nat) (contract : ContractRef)
    (depth : Int) (er : Bool) : Except Unit Tracer :=
  match captureStateBody ext t pc op mem stk contract depth with
  | .error e => .error e
  | .ok t1 =>
    .ok (if op == OP_JUMP || op == OP_JUMPI then t1
         else { t1 with LastJump := none })

/-- `Tracer.CaptureFault`: logs only; the tracer state is untouched. -/
def CaptureFault (ext : ExtLib) (t : Tracer) (pc : Nat) (op : OpCode)
    (gas cost : Nat) (mem stk : List Nat) (contract : ContractRef)
    (depth : Int) (er : Bool) : Except Unit Tracer :=
  .ok t

/-- `Tracer.CaptureEnd`: logging-only stub; the tracer state is untouched. -/
def CaptureEnd (t : Tracer) (output : List Nat) (gasUsed : Nat)
    (dur : Nat) (er : Bool) : Except Unit Tracer :=
  .ok t

/-- The claim's reading of the spec sentence on `intN` decoding: the
32-byte word as a two's-complement signed big integer.  Stated only to be
compared against the code's behaviour. -/
def twosComplement256 (v : Nat) : Int :=
  if v < 2 ^ 255 then (v : Int) else (v : Int) - 2 ^ 256

/-- The decoded string contributed by parameter position `j` and
evaluation-stack word `w` (from the top) in stack mode, `none` when either
index is out of range or the decode yields the empty string. -/
def stackParamAt (ext : ExtLib) (nodes : List AstNode) (stk : List Nat)
    (j w : Nat) : Option String :=
  match nodes.get? j, stk.get? w with
  | some nd, some word =>
    let p := DecodeStack ext nd word
    if p == "" then none else some p
  | _, _ => none

/-- All tracer fields except the instruction-map cache agree. -/
def SameCore (t t' : Tracer) : Prop :=
  t'.Stack = t.Stack ∧ t'.jumpDepth = t.jumpDepth ∧ t'.LastJump = t.LastJump ∧
  t'.sourceMaps = t.sourceMaps ∧ t'.contracts = t.contracts ∧
  t'.functionDefs = t.functionDefs

theorem sameCore_refl (t : Tracer) : SameCore t t :=
  ⟨rfl, rfl, rfl, rfl, rfl, rfl⟩

theorem memoInstructionMap_core (t : Tracer) (c : ContractRef) :
    SameCore t (memoInstructionMap t c).2 := by
  unfold memoInstructionMap
  dsimp only []
  split <;> exact ⟨rfl, rfl, rfl, rfl, rfl, rfl⟩

theorem toInstruction_snd (t : Tracer) (c : ContractRef) (pc : Nat) :
    (toInstruction t c pc).2 = (memoInstructionMap t c).2 := by
  unfold toInstruction
  dsimp only []
  split <;> rfl

theorem toInstruction_core (t : Tracer) (c : ContractRef) (pc : Nat) :
    SameCore t (toInstruction t c pc).2 := by
  rw [toInstruction_snd]; exact memoInstructionMap_core t c

theorem toSource_ok_snd (t : Tracer) (c : ContractRef) (pc : Nat)
    (s : String) (t' : Tracer) (h : toSource t c pc = .ok (s, t')) :
    t' = (toInstruction t c pc).2 := by
  unfold toSource at h
  dsimp only [] at h
  split at h
  · exact (Prod.mk.injEq _ _ _ _ ▸ (Except.ok.injEq _ _ ▸ h)).2.symm
  · split at h
    · exact absurd h (by simp)
    · split at h
      · exact absurd h (by simp)
      · exact (Prod.mk.injEq _ _ _ _ ▸ (Except.ok.injEq _ _ ▸ h)).2.symm

theorem toPreviousSource_ok_snd (t : Tracer) (c : ContractRef) (pc : Nat)
    (s : String) (t' : Tracer) (h : toPreviousSource t c pc = .ok (s, t')) :
    t' = (toInstruction t c pc).2 := by
  unfold toPreviousSource at h
  dsimp only [] at h
  split at h
  · exact absurd h (by simp)
  · split at h
    · exact (Prod.mk.injEq _ _ _ _ ▸ (Except.ok.injEq _ _ ▸ h)).2.symm
    · split at h
      · exact absurd h (by simp)
      · split at h
        · exact absurd h (by simp)
        · exact (Prod.mk.injEq _ _ _ _ ▸ (Except.ok.injEq _ _ ▸ h)).2.symm

theorem handleCallFamily_ok (ext : ExtLib) (t : Tracer) (pc : Nat)
    (mem stk : List Nat) (c : ContractRef) (depth : Int) (t' : Tracer)
    (h : handleCallFamily ext t pc mem stk c depth = .ok t') :
    (∃ fr, t'.Stack = t.Stack ++ [fr]) ∧ t'.jumpDepth = t.jumpDepth ∧
    t'.LastJump = t.LastJump := by
  unfold handleCallFamily at h
  dsimp only [] at h
  split at h
  · exact absurd h (by simp)
  split at h
  · exact absurd h (by simp)
  split at h
  · exact absurd h (by simp)
  split at h
  · exact absurd h (by simp)
  split at h
  · exact absurd h (by simp)
  rename_i fnDef _
  split at h
  · exact absurd h (by simp)
  rename_i params _
  split at h
  · exact absurd h (by simp)
  rename_i sr hsr
  split at h
  · exact absurd h (by simp)
  rename_i pm _
  have hsnd := toPreviousSource_ok_snd _ c pc sr.1 sr.2 (by rw [← hsr])
  have hc1 := toInstruction_core t c pc
  have hc2 : SameCore (toInstruction t c pc).2 sr.2 := hsnd ▸
    toInstruction_core (toInstruction t c pc).2 c pc
  have hc3 := toInstruction_core sr.2 c pc
  injection h with h
  subst h
  have hstack : ∀ fr : CallFrame,
      CallStack.Push (toInstruction sr.2 c pc).2.Stack fr = t.Stack ++ [fr] := by
    intro fr
    rw [CallStack.Push, hc3.1, hc2.1, hc1.1]
  refine ⟨⟨_, hstack _⟩, ?_, ?_⟩
  · show (toInstruction sr.2 c pc).2.jumpDepth = _
    rw [hc3.2.1, hc2.2.1, hc1.2.1]
  · show (toInstruction sr.2 c pc).2.LastJump = _
    rw [hc3.2.2.1, hc2.2.2.1, hc1.2.2.1]

theorem handleJump_ok (ext : ExtLib) (t : Tracer) (pc : Nat)
    (c : ContractRef) (depth : Int) (t' : Tracer)
    (h : handleJump ext t pc c depth = .ok t') :
    t'.Stack = t.Stack ∧ t'.jumpDepth = t.jumpDepth := by
  unfold handleJump at h
  dsimp only [] at h
  split at h
  · exact absurd h (by simp)
  rename_i sr hsr
  have hsnd := toSource_ok_snd _ c pc sr.1 sr.2 (by rw [← hsr])
  have hc1 := toInstruction_core t c pc
  have hc2 : SameCore (toInstruction t c pc).2 sr.2 := hsnd ▸
    toInstruction_core (toInstruction t c pc).2 c pc
  have hc3 := toInstruction_core sr.2 c pc
  injection h with h
  subst h
  constructor
  · show (toInstruction sr.2 c pc).2.Stack = _
    rw [hc3.1, hc2.1, hc1.1]
  · show (toInstruction sr.2 c pc).2.jumpDepth = _
    rw [hc3.2.1, hc2.2.1, hc1.2.1]

theorem handleJumpdest_ok (ext : ExtLib) (t : Tracer) (pc : Nat)
    (stk : List Nat) (c : ContractRef) (t' : Tracer)
    (h : handleJumpdest ext t pc stk c = .ok t') :
    (∃ new, t'.Stack = t.Stack ++ new) ∧
    (t'.jumpDepth = t.jumpDepth ∨ t'.jumpDepth = t.jumpDepth + 1 ∨
     t'.jumpDepth = if t.jumpDepth - 1 < 0 then 0 else t.jumpDepth - 1) := by
  unfold handleJumpdest at h
  dsimp only [] at h
  have hcore := toInstruction_core t c pc
  split at h
  · injection h with h
    subst h
    exact ⟨⟨[], by simp⟩, Or.inr (Or.inr rfl)⟩
  split at h
  · injection h with h
    subst h
    exact ⟨⟨[], by simp [hcore.1]⟩, Or.inl hcore.2.1⟩
  split at h
  · split at h
    · injection h with h
      subst h
      exact ⟨⟨[], by simp [hcore.1]⟩, Or.inl hcore.2.1⟩
    · split at h
      · exact absurd h (by simp)
      · injection h with h
        subst h
        have hstack : ∀ fr : CallFrame,
            CallStack.Push (toInstruction t c pc).2.Stack fr = t.Stack ++ [fr] := by
          intro fr
          rw [CallStack.Push, hcore.1]
        refine ⟨⟨_, hstack _⟩, Or.inr (Or.inl ?_)⟩
        show (toInstruction t c pc).2.jumpDepth + 1 = _
        rw [hcore.2.1]
  · injection h with h
    subst h
    exact ⟨⟨[], by simp [hcore.1]⟩, Or.inl hcore.2.1⟩

theorem captureStateBody_ok (ext : ExtLib) (t : Tracer) (pc : Nat)
    (op : OpCode) (mem stk : List Nat) (c : ContractRef) (depth : Int)
    (t' : Tracer)
    (h : captureStateBody ext t pc op mem stk c depth = .ok t') :
    (∃ new, t'.Stack = t.Stack ++ new) ∧
    (t'.jumpDepth = t.jumpDepth ∨ t'.jumpDepth = t.jumpDepth + 1 ∨
     t'.jumpDepth = if t.jumpDepth - 1 < 0 then 0 else t.jumpDepth - 1) := by
  unfold captureStateBody at h
  split at h
  · obtain ⟨⟨fr, h1⟩, h2, _⟩ := handleCallFamily_ok ext t pc mem stk c depth t' h
    exact ⟨⟨[fr], h1⟩, Or.inl h2⟩
  split at h
  · obtain ⟨⟨fr, h1⟩, h2, _⟩ := handleCallFamily_ok ext t pc mem stk c depth t' h
    exact ⟨⟨[fr], h1⟩, Or.inl h2⟩
  split at h
  · obtain ⟨h1, h2⟩ := handleJump_ok ext t pc c depth t' h
    exact ⟨⟨[], by simp [h1]⟩, Or.inl h2⟩
  split at h
  · exact handleJumpdest_ok ext t pc stk c t' h
  · injection h with h
    subst h
    exact ⟨⟨[], by simp⟩, Or.inl rfl⟩

theorem wrapSub1_eq (pc : Nat) (h1 : 1 ≤ pc) (h2 : pc < UINT64_MOD) :
    wrapSub1 pc = pc - 1 := by
  unfold wrapSub1 UINT64_MOD
  unfold UINT64_MOD at h2
  omega

/-- C1.  A per-instruction callback with opcode JUMPDEST whose `pc - 1`
matches the recorded PC of some frame on the tracer's stack is treated as
a function return: `jumpDepth` is decremented and clamped at 0 (logging
only), no frame is pushed, and the frame stack is unchanged (the whole
resulting state is the input state with the adjusted counter, the deferred
clearing of `LastJump` aside). -/
theorem jumpdest_return_classification (ext : ExtLib) (t : Tracer) (pc : Nat)
    (gas cost : Nat) (mem stk : List Nat) (c : ContractRef) (depth : Int)
    (er : Bool) (hpc : 1 ≤ pc) (hpcw : pc < UINT64_MOD)
    (hlk : CallStack.Lookup t.Stack (pc - 1) = true) :
    CaptureState ext t pc OP_JUMPDEST gas cost mem stk c depth er =
      .ok { t with
            jumpDepth := if t.jumpDepth - 1 < 0 then 0 else t.jumpDepth - 1,
            LastJump := none } := by
  unfold CaptureState captureStateBody handleJumpdest
  rw [wrapSub1_eq pc hpc hpcw, hlk]
  simp [OP_JUMPDEST, OP_CALL, OP_CALLCODE, OP_STATICCALL, OP_DELEGATECALL,
    OP_JUMP, OP_JUMPI]

/-- Shared concrete oracle record for witnesses and counterexamples. -/
def extW : ExtLib :=
  { bigToAddressString := fun _ => "0xBB",
    bytesToAddressString := fun _ => "0xAD",
    memGet := fun _ _ _ => [0, 0, 0, 0],
    matchFuncRegex := fun _ => false }

/-- Shared concrete contract reference for witnesses. -/
def crefW : ContractRef := { address := "0xAA", code := [] }

/-- A frame recorded with `PC = 4`, as a JUMP at program counter 4 leaves. -/
def frameW : CallFrame :=
  { Contract := "0xaa", Instruction := 0, Source := "jump", Line := 1,
    PC := 4, Depth := 1, Params := [] }

/-- A tracer holding one frame with `PC = 4` and `jumpDepth = 1`. -/
def tW1 : Tracer :=
  { LastJump := none, Stack := [frameW], contracts := [],
    instructionMaps := [], sourceMaps := [], receivers := [],
    functionDefs := [], jumpDepth := 1 }

/-- Witness for C1: a JUMPDEST at `pc = 5` over a stack recording `PC = 4`. -/
theorem jumpdest_return_classification_witness :
    CaptureState extW tW1 5 OP_JUMPDEST 0 0 [] [] crefW 1 false =
      .ok { tW1 with
            jumpDepth := if tW1.jumpDepth - 1 < 0 then 0 else tW1.jumpDepth - 1,
            LastJump := none } :=
  jumpdest_return_classification extW tW1 5 0 0 [] [] crefW 1 false
    (by decide) (by decide) rfl

/-- A pending-jump frame as the JUMP case records it. -/
def pendW : CallFrame :=
  { Contract := "0xaa", Instruction := 3, Source := "g(x)", Line := 2,
    PC := 7, Depth := 1, Params := [] }

/-- A tracer with a pending jump. -/
def tW3 : Tracer :=
  { LastJump := some pendW, Stack := [], contracts := [],
    instructionMaps := [], sourceMaps := [], receivers := [],
    functionDefs := [], jumpDepth := 0 }

/-- C3 counterexample.  JUMPI is not JUMP, and a JUMPI step neither records
nor consumes the pending jump, yet after processing it the pending-jump
register is still occupied: the deferred clear in `CaptureState` exempts
`JUMPI` alongside `JUMP`, so the claim's "any opcode other than JUMP"
fails at opcode JUMPI. -/
theorem pending_jump_survives_jumpi :
    CaptureState extW tW3 9 OP_JUMPI 0 0 [] [] crefW 1 false = .ok tW3 ∧
    tW3.LastJump = some pendW ∧ OP_JUMPI ≠ OP_JUMP :=
  ⟨rfl, rfl, by decide⟩

/-- C3 (amended).  After a completed per-instruction callback whose opcode
is neither JUMP nor JUMPI, the pending-jump register is empty (whether or
not a JUMPDEST consumed it: the deferred function clears it regardless). -/
theorem lastjump_cleared_unless_jump_or_jumpi (ext : ExtLib) (t : Tracer)
    (pc : Nat) (op : OpCode) (gas cost : Nat) (mem stk : List Nat)
    (c : ContractRef) (depth : Int) (er : Bool) (t' : Tracer)
    (hj : op ≠ OP_JUMP) (hji : op ≠ OP_JUMPI)
    (h : CaptureState ext t pc op gas cost mem stk c depth er = .ok t') :
    t'.LastJump = none := by
  unfold CaptureState at h
  split at h
  · exact absurd h (by simp)
  · injection h with h
    have hcond : (op == OP_JUMP || op == OP_JUMPI) = false := by
      simp [hj, hji]
    rw [hcond] at h
    simp only [Bool.false_eq_true, if_false] at h
    rw [← h]

/-- Witness for the amended C3: a STOP step leaves `LastJump` empty. -/
theorem lastjump_cleared_unless_jump_or_jumpi_witness :
    ({ tW3 with LastJump := none } : Tracer).LastJump = none :=
  lastjump_cleared_unless_jump_or_jumpi extW tW3 0 OP_STOP 0 0 [] [] crefW 1
    false _ (by decide) (by decide) rfl

/-- A tracer with an empty artifact set. -/
def tEmptyW : Tracer :=
  { LastJump := none, Stack := [], contracts := [], instructionMaps := [],
    sourceMaps := [], receivers := [], functionDefs := [], jumpDepth := 0 }

/-- A tracer knowing contract `0xbb` but with no function definitions, so
no selector can match. -/
def tW4 : Tracer :=
  { LastJump := none, Stack := [],
    contracts := [("0xbb", { Name := "B", SourceCode := [], fnDefs := [] })],
    instructionMaps := [], sourceMaps := [], receivers := [],
    functionDefs := [], jumpDepth := 0 }

/-- C4 evidence.  A CALL whose target address has no artifact (first
conjunct), or whose extracted selector matches no function definition of
the target (second conjunct), makes `findFnDef` return nil, and the very
next line dereferences it (`fnDef.Parameters.Parameters`): the callback
panics instead of eliding the frame and continuing. -/
theorem call_unresolved_fnDef_panics :
    CaptureState extW tEmptyW 0 OP_CALL 0 0 [] [1, 2, 3, 4, 5] crefW 1 false =
      .error () ∧
    CaptureState extW tW4 0 OP_CALL 0 0 [] [1, 2, 3, 4, 5] crefW 1 false =
      .error () :=
  ⟨rfl, rfl⟩

/-- A minimal artifact for address `0xaa`. -/
def contractW5 : TruffleContract :=
  { Name := "A", SourceCode := ("contract A { }").data, fnDefs := [] }

/-- A tracer knowing contract `0xaa`. -/
def tW5 : Tracer :=
  { LastJump := none, Stack := [], contracts := [("0xaa", contractW5)],
    instructionMaps := [], sourceMaps := [], receivers := [],
    functionDefs := [], jumpDepth := 0 }

/-- C5 evidence.  A start-of-call callback whose callee has an artifact and
whose input is empty reaches `input[:4]` and panics, instead of skipping
selector matching and completing without error. -/
theorem capture_start_short_input_panics :
    List.lookup (strToLower "0xAA") tW5.contracts = some contractW5 ∧
    CaptureStart extW tW5 "0xff" "0xAA" true [] 0 0 = .error () :=
  ⟨rfl, rfl⟩

instance exceptDecEq {ε α : Type} [DecidableEq ε] [DecidableEq α] :
    DecidableEq (Except ε α) := fun a b =>
  match a, b with
  | .ok x, .ok y =>
    match decEq x y with
    | isTrue h => isTrue (h ▸ rfl)
    | isFalse h => isFalse (fun hh => h (Except.ok.inj hh))
  | .error x, .error y =>
    match decEq x y with
    | isTrue h => isTrue (h ▸ rfl)
    | isFalse h => isFalse (fun hh => h (Except.error.inj hh))
  | .ok _, .error _ => isFalse (by intro hh; cases hh)
  | .error _, .ok _ => isFalse (by intro hh; cases hh)

/-- An `int256` parameter node named `x`. -/
def nodeInt256 : AstNode := .node "x" "" "int256" "" []

set_option maxRecDepth 8192 in
/-- C6 counterexample.  On the all-ones word, an `int256` parameter is
printed as the unsigned value `2^256 - 1`, not as the two's-complement
`-1` the claim prescribes: `DecodeParam` calls `big.Int.SetBytes`, which
is unsigned. -/
theorem decode_param_int_unsigned_counterexample :
    DecodeParam extW nodeInt256 0 (List.replicate 32 255) ≠
      .ok (nodeInt256.Name ++ " = " ++
        toString (twosComplement256 (bytesToNat (List.replicate 32 255))), 32) ∧
    DecodeParam extW nodeInt256 0 (List.replicate 32 255) =
      .ok ("x = 115792089237316195423570985008687907853269984665640564039457584007913129639935",
        32) ∧
    toString (twosComplement256 (bytesToNat (List.replicate 32 255))) = "-1" :=
  ⟨by decide, by decide, by decide⟩

/-- C6 (amended).  For a parameter whose type string begins with `int` or
with `uint`, both decode modes emit the unsigned decimal representation of
the word (buffer mode reads the 32 bytes at the offset big-endian; stack
mode prints the stack word itself); neither applies a two's-complement
reinterpretation. -/
theorem decode_int_uint_unsigned (ext : ExtLib) (node : AstNode)
    (offset : Nat) (input : List Nat)
    (hty : goHasPre node.TypeString "int" = true ∨
      goHasPre node.TypeString "uint" = true)
    (hb : offset + 32 ≤ input.length) :
    DecodeParam ext node offset input =
      .ok (node.Name ++ " = " ++
        toString (bytesToNat ((input.take (offset + 32)).drop offset)), 32) ∧
    ∀ item : Nat, DecodeStack ext node item =
      node.Name ++ " = " ++ toString item := by
  have hcond : (goHasPre node.TypeString "int" ||
      goHasPre node.TypeString "uint") = true := by
    rcases hty with h | h <;> simp [h]
  constructor
  · unfold DecodeParam
    dsimp only []
    rw [hcond]
    simp only [if_true]
    unfold goSliceNat
    rw [if_pos ⟨by omega, hb⟩]
  · intro item
    unfold DecodeStack
    dsimp only []
    rw [hcond]
    simp

/-- A `uint256` parameter node named `y`. -/
def nodeUintW : AstNode := .node "y" "" "uint256" "" []

/-- Witness for the amended C6 on a concrete zero word and stack word 7. -/
theorem decode_int_uint_unsigned_witness :
    DecodeParam extW nodeUintW 0 (List.replicate 32 0) = .ok ("y = 0", 32) ∧
    DecodeStack extW nodeUintW 7 = "y = 7" := by
  have h := decode_int_uint_unsigned extW nodeUintW 0 (List.replicate 32 0)
    (Or.inr rfl) (by decide)
  refine ⟨?_, ?_⟩
  · rw [h.1]; rfl
  · rw [h.2 7]; rfl

/-- The opcode dispatch of the switch, case `JUMPDEST`. -/
theorem captureStateBody_jumpdest (ext : ExtLib) (t : Tracer) (pc : Nat)
    (mem stk : List Nat) (c : ContractRef) (depth : Int) :
    captureStateBody ext t pc OP_JUMPDEST mem stk c depth =
      handleJumpdest ext t pc stk c := rfl

/-- C2.  A JUMPDEST that is not a return, whose instruction's source
mapping starts a known private function definition, with a pending jump
whose snippet does not match the function-pattern regex, decodes stack-mode
parameters from the function's parameter list, attaches them to the
pending frame, pushes exactly that frame, and increments `jumpDepth` by
exactly one (the deferred clear then empties the pending register). -/
theorem jumpdest_entry_pushes_pending_frame (ext : ExtLib) (t : Tracer)
    (pc : Nat) (gas cost : Nat) (mem stk : List Nat) (c : ContractRef)
    (depth : Int) (er : Bool) (i : Nat) (t1 : Tracer) (m : SourceMapping)
    (fnDef : AstNode) (lj : CallFrame) (ps : List String)
    (hret : CallStack.Lookup t.Stack (wrapSub1 pc) = false)
    (hti : toInstruction t c pc = (i, t1))
    (hsm : toSourceMapping t1 c i = some m)
    (hfd : isFunctionDefinition t1 c m = some fnDef)
    (hlj : t1.LastJump = some lj)
    (hre : ext.matchFuncRegex lj.Source = false)
    (hps : decodeStackParams ext fnDef.Parameters stk = .ok ps) :
    CaptureState ext t pc OP_JUMPDEST gas cost mem stk c depth er =
      .ok { t1 with
            Stack := CallStack.Push t1.Stack { lj with Params := ps },
            jumpDepth := t1.jumpDepth + 1,
            LastJump := none } := by
  have hbody : captureStateBody ext t pc OP_JUMPDEST mem stk c depth =
      .ok { t1 with
            Stack := CallStack.Push t1.Stack { lj with Params := ps },
            jumpDepth := t1.jumpDepth + 1 } := by
    rw [captureStateBody_jumpdest]
    unfold handleJumpdest
    rw [hret]
    simp only [Bool.false_eq_true, if_false]
    try dsimp only []
    rw [hti]
    try dsimp only []
    rw [hsm]
    try dsimp only []
    rw [hfd, hlj]
    try dsimp only []
    rw [hre]
    simp only [Bool.false_eq_true, if_false]
    rw [hps]
  unfold CaptureState
  rw [hbody]
  rfl

/-- A regular mapping over span `(0, 3)`. -/
def smA : SourceMapping :=
  { Start := 0, Length := 3, FileId := 0, Jump := "-", Line := 1 }

/-- A tracer whose only source map holds the single mapping `smA`. -/
def tW7ce : Tracer :=
  { LastJump := none, Stack := [], contracts := [], instructionMaps := [],
    sourceMaps := [("0xaa", [smA])], receivers := [], functionDefs := [],
    jumpDepth := 0 }

/-- C7 counterexample.  Instruction ordinal 0 lies within the decoded map,
yet no ordinal `j < 0` exists: the Go walk starts at `0 - 1`, which wraps
to `2^64 - 1` under `uint64` arithmetic and indexes outside the source-map
array — a panic, not the returned mapping the claim promises for every
ordinal within the map. -/
theorem to_previous_mapping_panics_at_zero :
    0 < ([smA] : List SourceMapping).length ∧
    toPreviousSourceMapping tW7ce crefW 0 = .error () :=
  ⟨by decide, rfl⟩

theorem walkPrev_reaches (srcMap : List SourceMapping) (next mj : SourceMapping)
    (j : Nat) (hlen : srcMap.length ≤ UINT64_MOD)
    (hmj : srcMap.get? j = some mj)
    (hdiff : (mj.Start == next.Start && mj.Length == next.Length) = false) :
    ∀ d fuel r, r = j + d → r < srcMap.length → d < fuel →
    (∀ k mm, j < k → k ≤ r → srcMap.get? k = some mm →
      (mm.Start == next.Start && mm.Length == next.Length) = true) →
    walkPrev srcMap next fuel r = .ok mj := by
  intro d
  induction d with
  | zero =>
    intro fuel r hr hrlen hfuel _
    obtain ⟨f, rfl⟩ : ∃ f, fuel = f + 1 := ⟨fuel - 1, by omega⟩
    have hr' : r = j := by omega
    subst hr'
    unfold walkPrev
    rw [hmj]
    dsimp only []
    rw [hdiff]
    simp
  | succ d ih =>
    intro fuel r hr hrlen hfuel hbetween
    obtain ⟨f, rfl⟩ : ∃ f, fuel = f + 1 := ⟨fuel - 1, by omega⟩
    cases hg : srcMap.get? r with
    | none =>
      rw [List.get?_eq_none] at hg
      omega
    | some mm =>
      have heq := hbetween r mm (by omega) (le_refl r) hg
      unfold walkPrev
      rw [hg]
      dsimp only []
      rw [heq]
      simp only [if_true]
      rw [wrapSub1_eq r (by omega) (by omega)]
      have hr1 : r - 1 = j + d := by omega
      rw [hr1]
      exact ih f (j + d) rfl (by omega) (by omega)
        (fun k mm2 hk1 hk2 hg2 => hbetween k mm2 hk1 (by omega) hg2)

/-- C7 (amended).  For a contract with a decoded source map and an
instruction ordinal `i` within it, **provided some ordinal `j < i` has a
`(Start, Length)` pair differing from mapping `i`'s**, the walk of
`toPreviousSourceMapping` returns the mapping at the greatest such `j`
(walking back from `i - 1` while the pairs coincide).  Without such a
`j` — in particular at `i = 0` — the walk leaves the array and panics
(see the counterexample). -/
theorem to_previous_mapping_greatest_differing (t : Tracer) (c : ContractRef)
    (instruction : Nat) (srcMap : List SourceMapping)
    (next mj : SourceMapping) (j : Nat)
    (hmap : List.lookup (strToLower c.address) t.sourceMaps = some srcMap)
    (hlen : srcMap.length ≤ UINT64_MOD)
    (hi : instruction < srcMap.length)
    (hnext : srcMap.get? instruction = some next)
    (hj : j < instruction)
    (hmj : srcMap.get? j = some mj)
    (hdiff : (mj.Start == next.Start && mj.Length == next.Length) = false)
    (hbetween : ∀ k mm, j < k → k < instruction → srcMap.get? k = some mm →
      (mm.Start == next.Start && mm.Length == next.Length) = true) :
    toPreviousSourceMapping t c instruction = .ok (some mj) := by
  unfold toPreviousSourceMapping
  rw [hmap]
  dsimp only []
  rw [if_neg (by omega)]
  rw [hnext]
  dsimp only []
  have hw := walkPrev_reaches srcMap next mj j hlen hmj hdiff
    (instruction - 1 - j) (srcMap.length + 2) (instruction - 1) (by omega)
    (by omega) (by omega)
    (fun k mm hk1 hk2 hg => hbetween k mm hk1 (by omega) hg)
  rw [wrapSub1_eq instruction (by omega) (by omega), hw]

/-- A regular mapping over span `(4, 2)`. -/
def smB : SourceMapping :=
  { Start := 4, Length := 2, FileId := 0, Jump := "-", Line := 2 }

/-- A tracer whose source map is `[smA, smB, smB]`. -/
def tW7 : Tracer :=
  { LastJump := none, Stack := [], contracts := [], instructionMaps := [],
    sourceMaps := [("0xaa", [smA, smB, smB])], receivers := [],
    functionDefs := [], jumpDepth := 0 }

/-- Witness for the amended C7: at ordinal 2 of `[smA, smB, smB]` the walk
skips the equal mapping at 1 and returns the differing mapping at 0. -/
theorem to_previous_mapping_greatest_differing_witness :
    toPreviousSourceMapping tW7 crefW 2 = .ok (some smA) :=
  to_previous_mapping_greatest_differing tW7 crefW 2 [smA, smB, smB] smB smA 0
    rfl (by decide) (by decide) rfl (by decide) rfl rfl
    (fun k mm h1 h2 hg => by
      have hk : k = 1 := by omega
      subst hk
      injection hg with hg
      subst hg
      rfl)

theorem decodeStackLoop_eq (ext : ExtLib) (nodes : List AstNode)
    (stk : List Nat) (hlen : nodes.length ≤ stk.length) :
    ∀ fuel i, fuel + i = nodes.length →
    decodeStackLoop ext nodes stk fuel i =
      .ok ((List.range' i fuel).filterMap (fun k =>
        stackParamAt ext nodes stk (nodes.length - 1 - k) k)) := by
  intro fuel
  induction fuel with
  | zero =>
    intro i hi
    unfold decodeStackLoop
    simp
  | succ f ih =>
    intro i hi
    cases hn : nodes.get? (nodes.length - 1 - i) with
    | none =>
      rw [List.get?_eq_none] at hn
      omega
    | some node =>
      cases hs : stk.get? i with
      | none =>
        rw [List.get?_eq_none] at hs
        omega
      | some w =>
        unfold decodeStackLoop
        rw [hn]
        dsimp only []
        unfold stackBack
        rw [hs]
        dsimp only []
        rw [ih (i + 1) (by omega)]
        rw [List.range'_succ, List.filterMap_cons]
        unfold stackParamAt
        rw [hn, hs]
        dsimp only []
        cases hp : (DecodeStack ext node w == "") with
        | true => simp [hp]
        | false => simp [hp]

/-- C8.  In stack-mode decoding with `n` parameters, iteration `i` decodes
the parameter at source position `n - 1 - i` from evaluation-stack word
`i` counted from the top (first conjunct: the pre-reversal list follows
the loop order), and after the in-place reversal the emitted strings
appear in source order: position `j`'s string comes from stack word
`n - 1 - j` (second conjunct). -/
theorem decode_stack_params_order (ext : ExtLib) (nodes : List AstNode)
    (stk : List Nat) (hlen : nodes.length ≤ stk.length) :
    decodeStackParams ext nodes stk =
      .ok (((List.range nodes.length).filterMap (fun i =>
        stackParamAt ext nodes stk (nodes.length - 1 - i) i)).reverse) ∧
    decodeStackParams ext nodes stk =
      .ok ((List.range nodes.length).filterMap (fun j =>
        stackParamAt ext nodes stk j (nodes.length - 1 - j))) := by
  have h1 : decodeStackParams ext nodes stk =
      .ok (((List.range nodes.length).filterMap (fun i =>
        stackParamAt ext nodes stk (nodes.length - 1 - i) i)).reverse) := by
    unfold decodeStackParams
    rw [decodeStackLoop_eq ext nodes stk hlen nodes.length 0 (by omega)]
    rw [List.range_eq_range']
  refine ⟨h1, ?_⟩
  rw [h1]
  congr 1
  rw [← List.filterMap_reverse]
  rw [List.range_eq_range', List.reverse_range']
  rw [List.filterMap_map]
  rw [← List.range_eq_range']
  apply List.filterMap_congr
  intro x hx
  have hxn : x < nodes.length := List.mem_range.mp hx
  show stackParamAt ext nodes stk
      (nodes.length - 1 - (0 + nodes.length - 1 - x)) (0 + nodes.length - 1 - x) =
    stackParamAt ext nodes stk x (nodes.length - 1 - x)
  have e1 : nodes.length - 1 - (0 + nodes.length - 1 - x) = x := by omega
  have e2 : 0 + nodes.length - 1 - x = nodes.length - 1 - x := by omega
  rw [e1, e2]

/-- Two `uint256` parameters in source order `a`, `b`. -/
def nodesW8 : List AstNode :=
  [.node "a" "" "uint256" "" [], .node "b" "" "uint256" "" []]

/-- Witness for C8: over stack `[10, 20]` (top-first), the loop decodes
`b` from the top word and `a` from the next, and the reversal restores
source order. -/
theorem decode_stack_params_order_witness :
    (decodeStackParams extW nodesW8 [10, 20] =
      .ok (((List.range nodesW8.length).filterMap (fun i =>
        stackParamAt extW nodesW8 [10, 20] (nodesW8.length - 1 - i) i)).reverse) ∧
    decodeStackParams extW nodesW8 [10, 20] =
      .ok ((List.range nodesW8.length).filterMap (fun j =>
        stackParamAt extW nodesW8 [10, 20] j (nodesW8.length - 1 - j)))) ∧
    decodeStackParams extW nodesW8 [10, 20] = .ok ["a = 20", "b = 10"] :=
  ⟨decode_stack_params_order extW nodesW8 [10, 20] (by decide), rfl⟩

/-- C9.  No callback ever removes a frame: every successfully completed
`CaptureStart` or `CaptureState` leaves the previous stack as a prefix
(the new stack is the old one plus the frames pushed), `CaptureFault` and
`CaptureEnd` return the state unchanged, and the opcodes RETURN, REVERT,
STOP, SELFDESTRUCT and `InvalidOpcode` perform no frame manipulation at
all — so the final stack is the cumulative sequence of all pushes. -/
theorem callbacks_never_pop (ext : ExtLib) (t : Tracer)
    (fromAddr toAddr : String) (call : Bool) (input : List Nat)
    (gas gas2 cost : Nat) (value : Int) (pc : Nat) (op : OpCode)
    (mem stk : List Nat) (c : ContractRef) (depth : Int) (er : Bool)
    (output : List Nat) (dur : Nat) :
    (∀ t', CaptureStart ext t fromAddr toAddr call input gas value = .ok t' →
      ∃ pushed, t'.Stack = t.Stack ++ pushed) ∧
    (∀ t', CaptureState ext t pc op gas2 cost mem stk c depth er = .ok t' →
      ∃ pushed, t'.Stack = t.Stack ++ pushed) ∧
    CaptureFault ext t pc op gas2 cost mem stk c depth er = .ok t ∧
    CaptureEnd t output gas2 dur er = .ok t ∧
    ((op = OP_RETURN ∨ op = OP_REVERT ∨ op = OP_STOP ∨ op = OP_SELFDESTRUCT ∨
      op = InvalidOpcode) →
      ∀ t', CaptureState ext t pc op gas2 cost mem stk c depth er = .ok t' →
        t'.Stack = t.Stack) := by
  refine ⟨?_, ?_, rfl, rfl, ?_⟩
  · intro t' h
    unfold CaptureStart at h
    split at h
    · injection h with h
      subst h
      exact ⟨[], by simp⟩
    · split at h
      · exact absurd h (by simp)
      · dsimp only [] at h
        split at h
        · exact absurd h (by simp)
        · injection h with h
          subst h
          exact ⟨_, rfl⟩
  · intro t' h
    unfold CaptureState at h
    split at h
    · exact absurd h (by simp)
    · rename_i t1 heq
      injection h with h
      have hst : t'.Stack = t1.Stack := by
        subst h
        split <;> rfl
      obtain ⟨⟨new, hnew⟩, _⟩ := captureStateBody_ok ext t pc op mem stk c
        depth t1 heq
      exact ⟨new, by rw [hst, hnew]⟩
  · intro hop t' h
    have hbody : ∀ t1, captureStateBody ext t pc op mem stk c depth =
        .ok t1 → t1 = t := by
      rcases hop with rfl | rfl | rfl | rfl | rfl <;>
        (intro t1 h1; injection h1 with h1; exact h1.symm)
    unfold CaptureState at h
    split at h
    · exact absurd h (by simp)
    · rename_i t1 heq
      injection h with h
      have ht1 : t1 = t := hbody t1 heq
      subst ht1
      subst h
      split <;> rfl

/-- Witness for C9: a RETURN step leaves the frame stack unchanged. -/
theorem callbacks_never_pop_witness :
    ({ tW1 with LastJump := none } : Tracer).Stack = tW1.Stack :=
  (callbacks_never_pop extW tW1 "f" "t" true [] 0 0 0 0 0 OP_RETURN [] []
    crefW 1 false [] 0).2.2.2.2 (Or.inl rfl) _ rfl

/-- C10.  The `jumpDepth` counter never goes negative across a completed
per-instruction callback: it only moves at JUMPDEST (entry increments it;
return decrements and immediately clamps a negative result to 0 before
the callback returns), so non-negativity is preserved. -/
theorem capture_state_jump_depth_nonneg (ext : ExtLib) (t : Tracer)
    (pc : Nat) (op : OpCode) (gas cost : Nat) (mem stk : List Nat)
    (c : ContractRef) (depth : Int) (er : Bool) (t' : Tracer)
    (h0 : 0 ≤ t.jumpDepth)
    (h : CaptureState ext t pc op gas cost mem stk c depth er = .ok t') :
    0 ≤ t'.jumpDepth := by
  unfold CaptureState at h
  split at h
  · exact absurd h (by simp)
  · rename_i t1 heq
    injection h with h
    have hjd : t'.jumpDepth = t1.jumpDepth := by
      subst h
      split <;> rfl
    obtain ⟨_, hd⟩ := captureStateBody_ok ext t pc op mem stk c depth t1 heq
    rw [hjd]
    rcases hd with h1 | h1 | h1 <;> rw [h1]
    · exact h0
    · omega
    · split <;> omega

/-- Witness for C10: the clamped decrement at a return JUMPDEST stays
non-negative. -/
theorem capture_state_jump_depth_nonneg_witness :
    (0 : Int) ≤
      ({ tW1 with jumpDepth := 0, LastJump := none } : Tracer).jumpDepth :=
  capture_state_jump_depth_nonneg extW tW1 5 OP_JUMPDEST 0 0 [] [] crefW 1
    false _ (by decide) rfl

/-- A private function definition `store(uint256 v)` spanning `7:5:0`. -/
def fnDefW2 : AstNode :=
  .node "store" "7:5:0" "" "" [.node "v" "" "uint256" "" []]

/-- The mapping at the JUMPDEST: its `Start` equals the span start 7. -/
def smW2 : SourceMapping :=
  { Start := 7, Length := 5, FileId := 0, Jump := "i", Line := 3 }

/-- The pending frame left by the preceding JUMP. -/
def ljW2 : CallFrame :=
  { Contract := "0xaa", Instruction := 2, Source := "store(42)", Line := 9,
    PC := 4, Depth := 1, Params := [] }

/-- A tracer poised at a private-function entry: pending jump set, mapping
0 starting the definition's span, PC 6 mapping to instruction 0. -/
def tW2 : Tracer :=
  { LastJump := some ljW2, Stack := [], contracts := [],
    instructionMaps := [("0xaa", [(6, 0)])],
    sourceMaps := [("0xaa", [smW2])], receivers := [],
    functionDefs := [("0xaa", [fnDefW2])], jumpDepth := 0 }

/-- Witness for C2: a JUMPDEST at PC 6 with stack word 42 pushes the
pending frame with `["v = 42"]` and increments `jumpDepth` to 1. -/
theorem jumpdest_entry_pushes_pending_frame_witness :
    CaptureState extW tW2 6 OP_JUMPDEST 0 0 [] [42] crefW 1 false =
      .ok { tW2 with
            Stack := CallStack.Push tW2.Stack { ljW2 with Params := ["v = 42"] },
            jumpDepth := tW2.jumpDepth + 1,
            LastJump := none } :=
  jumpdest_entry_pushes_pending_frame extW tW2 6 0 0 [] [42] crefW 1 false 0
    tW2 smW2 fnDefW2 ljW2 ["v = 42"] rfl rfl rfl rfl rfl rfl rfl
